import Mathlib

/-!
# r_game_1: the deformable quad (`Points.h`) and the frame loop (`main.cpp`)

A shallow embedding of `class Points` and of the body of the render loop of
`main`, together with the properties of the transform engine, of the
animation counters and of the order of the graphics calls.

Conventions of the embedding.

* `float` values are elements of a type `K` with the arithmetic operations,
  and the definitions of `Points.h` use nothing else of `K`.  They are read
  in two ways: over `F32`, a model of binary32 (round to nearest, ties to
  even, gradual underflow, overflow to infinity, NaN), which is what the
  program computes; and over the reals, which is what the formulas of the
  specification denote.  A theorem says in which one it is stated.
* The animation variables take only a few hundred values; they are followed
  over `ℚ`, float literals standing for the rationals they denote (`.3f` is
  `3/10`).
* The GLM functions used by `Points.h` (`translate`, `rotate`, `scale`,
  `radians`, `normalize`, matrix and vector products) are written out after
  the GLM implementation, column-major.  The three library functions
  (`cos`, `sin`, `inversesqrt`) and the degree-to-radian factor are carried
  in a record `Glm.Prims`.
* `int timer` is an `Int`; it never leaves `[0, 500]`.
-/

/-! ## Binary32 arithmetic -/

/-- A binary32 value: a finite value (the rational it denotes), an infinity
with its sign, or a NaN.  The two zeros are one value `fin 0`, and so are
all NaNs: the code has no division by a variable and no test of a sign, so
it cannot tell them apart.  Every operation rounds its exact result once
(no wider intermediate precision, no fused multiply-add). -/
inductive F32 where
  | fin (q : ℚ)
  | inf (negative : Bool)
  | nan
deriving DecidableEq, Repr

namespace F32

/-- The natural number `x * 2 ^ k` for `k ≥ 0`, and `x` for `k < 0`. -/
def pow2Mul (x : Nat) (k : Int) : Nat := x * 2 ^ k.toNat

/-- The number of halvings that take `n` below 2, at most `fuel` of them. -/
def log2Fuel : Nat → Nat → Nat
  | 0, _ => 0
  | fuel + 1, n => if 2 ≤ n then log2Fuel fuel (n / 2) + 1 else 0

/-- The position of the leading bit of `n`: `2 ^ log2 n ≤ n < 2 ^ (log2 n + 1)` for `n > 0`. -/
def log2 (n : Nat) : Nat := log2Fuel n n

/-- The exponent `e` with `2 ^ e ≤ a / b < 2 ^ (e + 1)`, for positive `a` and `b`. -/
def exponent (a b : Nat) : Int :=
  let l : Int := (log2 a : Int) - (log2 b : Int)
  if pow2Mul b l ≤ pow2Mul a (-l) then l else l - 1

/-- Rounding of the positive rational `a / b` to the nearest binary32 value,
ties to even: `none` is overflow. -/
def roundMag (a b : Nat) : Option ℚ :=
  let e := max (exponent a b) (-126)
  let k := 23 - e
  let num := pow2Mul a k
  let den := pow2Mul b (-k)
  let n := num / den
  let r := num % den
  let n := if 2 * r < den then n else if den < 2 * r then n + 1 else if n % 2 = 0 then n else n + 1
  if pow2Mul (2 ^ 128) k ≤ pow2Mul n (-k) then none
  else some (mkRat (pow2Mul n (-k)) (pow2Mul 1 k))

/-- Rounding of a rational to binary32, to nearest with ties to even; a
magnitude that rounds to `2 ^ 128` or more gives an infinity. -/
def round (q : ℚ) : F32 :=
  if q.num = 0 then fin 0
  else
    match roundMag q.num.natAbs q.den with
    | none => inf (decide (q.num < 0))
    | some m => fin (if q.num < 0 then -m else m)

/-- The operation `-a` of `float`. -/
def neg : F32 → F32
  | fin a => fin (-a)
  | inf s => inf (!s)
  | nan => nan

/-- The operation `a + b` of `float`: the exact sum, rounded. -/
def add : F32 → F32 → F32
  | fin a, fin b => round (a + b)
  | fin _, inf s => inf s
  | inf s, fin _ => inf s
  | inf s, inf t => if s = t then inf s else nan
  | _, _ => nan

/-- The operation `a * b` of `float`: the exact product, rounded. -/
def mul : F32 → F32 → F32
  | fin a, fin b => round (a * b)
  | fin a, inf s => if a.num = 0 then nan else inf (xor s (decide (a.num < 0)))
  | inf s, fin b => if b.num = 0 then nan else inf (xor s (decide (b.num < 0)))
  | inf s, inf t => inf (xor s t)
  | _, _ => nan

/-- The operation `a / b` of `float`: the exact quotient, rounded.  A finite
nonzero value divided by zero gives the infinity of the sign of the dividend
(the zero is taken as `+0`). -/
def div : F32 → F32 → F32
  | fin a, fin b =>
    if b.num = 0 then (if a.num = 0 then nan else inf (decide (a.num < 0))) else round (a / b)
  | fin _, inf _ => fin 0
  | inf s, fin b => inf (xor s (decide (b.num < 0)))
  | _, _ => nan

instance : Zero F32 := ⟨fin 0⟩
instance : One F32 := ⟨fin 1⟩
instance : Neg F32 := ⟨neg⟩
instance : Add F32 := ⟨add⟩
instance : Sub F32 := ⟨fun a b => add a (neg b)⟩
instance : Mul F32 := ⟨mul⟩
instance : Div F32 := ⟨div⟩
instance : OfNat F32 4 := ⟨fin 4⟩

/-- A finite binary32 value: `fin q` for a rational `q` that rounding leaves as
it is. -/
def Finite (x : F32) : Prop := ∃ q : ℚ, x = fin q ∧ round q = fin q

end F32

/-! ## The GLM functions used by `Points.h` -/

namespace Glm

/-- The type `glm::vec2`. -/
structure Vec2 (K : Type) where
  x : K
  y : K
deriving DecidableEq, Repr

/-- The type `glm::vec3`. -/
structure Vec3 (K : Type) where
  x : K
  y : K
  z : K
deriving DecidableEq, Repr

/-- The type `glm::vec4`. -/
structure Vec4 (K : Type) where
  x : K
  y : K
  z : K
  w : K
deriving DecidableEq, Repr

/-- The type `glm::mat4`, column-major: `c0 .. c3` are `m[0] .. m[3]`. -/
structure Mat4 (K : Type) where
  c0 : Vec4 K
  c1 : Vec4 K
  c2 : Vec4 K
  c3 : Vec4 K
deriving DecidableEq, Repr

/-- The primitives of the math library that are not field operations:
`cos`, `sin`, `inversesqrt`, and the factor by which `glm::radians`
multiplies (`π / 180`). -/
structure Prims (K : Type) where
  cos : K → K
  sin : K → K
  inversesqrt : K → K
  degToRad : K

variable {K : Type} [Zero K] [One K] [Add K] [Sub K] [Neg K] [Mul K] [Div K] [OfNat K 4]

/-- Componentwise sum `a + b` of `glm::vec2`. -/
def Vec2.add (a b : Vec2 K) : Vec2 K := ⟨a.x + b.x, a.y + b.y⟩

/-- Unary minus `-a` of `glm::vec2`. -/
def Vec2.neg (a : Vec2 K) : Vec2 K := ⟨-a.x, -a.y⟩

/-- Division by a scalar, `a / s`, of `glm::vec2`. -/
def Vec2.divScalar (a : Vec2 K) (s : K) : Vec2 K := ⟨a.x / s, a.y / s⟩

/-- The constructor `glm::vec3(v, z)` from a `vec2` and a scalar. -/
def Vec3.ofVec2 (v : Vec2 K) (z : K) : Vec3 K := ⟨v.x, v.y, z⟩

/-- The truncating constructor `glm::vec3(v)` from a `vec4`. -/
def Vec3.ofVec4 (v : Vec4 K) : Vec3 K := ⟨v.x, v.y, v.z⟩

/-- The constructor `glm::vec4(v, z, w)` from a `vec2` and two scalars. -/
def Vec4.ofVec2 (v : Vec2 K) (z w : K) : Vec4 K := ⟨v.x, v.y, z, w⟩

/-- Componentwise sum of `glm::vec4`. -/
def Vec4.add (a b : Vec4 K) : Vec4 K := ⟨a.x + b.x, a.y + b.y, a.z + b.z, a.w + b.w⟩

/-- Product `v * s` of a `glm::vec4` with a scalar. -/
def Vec4.smul (v : Vec4 K) (s : K) : Vec4 K := ⟨v.x * s, v.y * s, v.z * s, v.w * s⟩

/-- Product `v * s` of a `glm::vec3` with a scalar. -/
def Vec3.smul (v : Vec3 K) (s : K) : Vec3 K := ⟨v.x * s, v.y * s, v.z * s⟩

/-- The function `glm::dot` on `vec3`. -/
def Vec3.dot (a b : Vec3 K) : K := a.x * b.x + a.y * b.y + a.z * b.z

/-- The function `glm::normalize(v)`, computed as `v * inversesqrt(dot(v, v))`. -/
def normalize (g : Prims K) (v : Vec3 K) : Vec3 K := v.smul (g.inversesqrt (v.dot v))

/-- The function `glm::radians(degrees)`, `degrees * (π / 180)`. -/
def radians (g : Prims K) (degrees : K) : K := degrees * g.degToRad

/-- The identity matrix `glm::mat4(1.0f)`. -/
def Mat4.one : Mat4 K := ⟨⟨1, 0, 0, 0⟩, ⟨0, 1, 0, 0⟩, ⟨0, 0, 1, 0⟩, ⟨0, 0, 0, 1⟩⟩

/-- The product `m * v` of a `mat4` with a `vec4`:
`m[0] * v.x + m[1] * v.y + m[2] * v.z + m[3] * v.w`. -/
def Mat4.mulVec (m : Mat4 K) (v : Vec4 K) : Vec4 K :=
  (((m.c0.smul v.x).add (m.c1.smul v.y)).add (m.c2.smul v.z)).add (m.c3.smul v.w)

/-- The product `a * b` of two `mat4`: column `j` of the result is `a * b[j]`. -/
def Mat4.mul (a b : Mat4 K) : Mat4 K :=
  ⟨a.mulVec b.c0, a.mulVec b.c1, a.mulVec b.c2, a.mulVec b.c3⟩

/-- The function `glm::translate(m, v)`: `Result = m;
Result[3] = m[0] * v[0] + m[1] * v[1] + m[2] * v[2] + m[3]`. -/
def translate (m : Mat4 K) (v : Vec3 K) : Mat4 K :=
  { m with c3 := (((m.c0.smul v.x).add (m.c1.smul v.y)).add (m.c2.smul v.z)).add m.c3 }

/-- The function `glm::scale(m, v)`: the first three columns are multiplied by
`v[0]`, `v[1]`, `v[2]`, the fourth is kept. -/
def scale (m : Mat4 K) (v : Vec3 K) : Mat4 K :=
  ⟨m.c0.smul v.x, m.c1.smul v.y, m.c2.smul v.z, m.c3⟩

/-- The function `glm::rotate(m, angle, v)`: the axis is normalised, the
3x3 rotation `Rotate` is built from `c = cos angle`, `s = sin angle` and
`temp = (1 - c) * axis`, and the first three columns of `m` are combined with
it; the fourth column is kept. -/
def rotate (g : Prims K) (m : Mat4 K) (angle : K) (v : Vec3 K) : Mat4 K :=
  let c := g.cos angle
  let s := g.sin angle
  let axis := normalize g v
  let temp := axis.smul (1 - c)
  let r00 := c + temp.x * axis.x
  let r01 := temp.x * axis.y + s * axis.z
  let r02 := temp.x * axis.z - s * axis.y
  let r10 := temp.y * axis.x - s * axis.z
  let r11 := c + temp.y * axis.y
  let r12 := temp.y * axis.z + s * axis.x
  let r20 := temp.z * axis.x + s * axis.y
  let r21 := temp.z * axis.y - s * axis.x
  let r22 := c + temp.z * axis.z
  ⟨((m.c0.smul r00).add (m.c1.smul r01)).add (m.c2.smul r02),
   ((m.c0.smul r10).add (m.c1.smul r11)).add (m.c2.smul r12),
   ((m.c0.smul r20).add (m.c1.smul r21)).add (m.c2.smul r22),
   m.c3⟩

end Glm

/-- The values of the library functions over binary32 at the arguments the
binary32 theorems evaluate them at: `cos 0 = 1`, `sin 0 = 0` and
`inversesqrt 1 = 1`, all exact.  Other arguments are not tabulated (`nan`
stands for them; no theorem evaluates the record there).  The factor of
`glm::radians` is its literal, rounded. -/
def F32.prims : Glm.Prims F32 :=
  { cos := fun x => if x = 0 then 1 else F32.nan
    sin := fun x => if x = 0 then 0 else F32.nan
    inversesqrt := fun x => if x = 1 then 1 else F32.nan
    degToRad :=
      F32.round (1745329251994329576923690768489 / 100000000000000000000000000000000) }

open Glm

/-- The data members of `class Points`. -/
structure Points (K : Type) where
  m_originalPoints : Fin 4 → Vec2 K
  m_glData : Fin 8 → K
  m_center : Vec2 K
  m_translation : Vec2 K
  m_scale : Vec2 K
  m_deform : Fin 4 → Vec4 K
  m_rotationDegrees : K

namespace Points

variable {K : Type} [Zero K] [One K] [Add K] [Sub K] [Neg K] [Mul K] [Div K] [OfNat K 4]

/-- The method `Points::move`. -/
def move (p : Points K) (x y : K) : Points K :=
  { p with m_translation := ⟨x, y⟩ }

/-- The method `Points::scale`. -/
def scale (p : Points K) (scaleX scaleY : K) : Points K :=
  { p with m_scale := ⟨scaleX, scaleY⟩ }

/-- The method `Points::rotate`. -/
def rotate (p : Points K) (degrees : K) : Points K :=
  { p with m_rotationDegrees := degrees }

/-- The four-element array literal `{a, b, c, d}` assigned to `m_deform`. -/
def array4 {α : Type} (a b c d : α) : Fin 4 → α
  | ⟨0, _⟩ => a
  | ⟨1, _⟩ => b
  | ⟨2, _⟩ => c
  | ⟨_ + 3, _⟩ => d

/-- The method `Points::reset`. -/
def reset (p : Points K) : Points K :=
  let p := p.move 0 0
  let p := p.scale 1 1
  let p := p.rotate 0
  { p with m_deform := array4 ⟨0, 0, 0, 0⟩ ⟨0, 0, 0, 0⟩ ⟨0, 0, 0, 0⟩ ⟨0, 0, 0, 0⟩ }

/-- The method `Points::deform`. -/
def deform (p : Points K) (top bottom left right : K) : Points K :=
  { p with m_deform :=
      array4 ⟨-bottom, -left, 0, 0⟩ ⟨bottom, -right, 0, 0⟩ ⟨top, right, 0, 0⟩ ⟨-top, left, 0, 0⟩ }

/-- The matrix `transform` built by steps 1 and 3 of
`Points::updateTransformedPoints`. -/
def mainTransform (g : Prims K) (p : Points K) : Mat4 K :=
  let transform : Mat4 K := Mat4.one
  let transform := Glm.translate transform (Vec3.ofVec2 p.m_translation 0)
  let transform := Glm.translate transform (Vec3.ofVec2 p.m_center 0)
  let transform := Glm.rotate g transform (radians g p.m_rotationDegrees) ⟨0, 0, 1⟩
  let transform := Glm.scale transform (Vec3.ofVec2 p.m_scale 1)
  Glm.translate transform (Vec3.ofVec2 p.m_center.neg 0)

/-- The array `deform_transforms` of step 2 of
`Points::updateTransformedPoints`. -/
def deformTransforms (p : Points K) : Fin 4 → Mat4 K :=
  array4
    (Glm.translate Mat4.one (Vec3.ofVec4 (p.m_deform 0)))
    (Glm.translate Mat4.one (Vec3.ofVec4 (p.m_deform 1)))
    (Glm.translate Mat4.one (Vec3.ofVec4 (p.m_deform 2)))
    (Glm.translate Mat4.one (Vec3.ofVec4 (p.m_deform 3)))

/-- One iteration of the loop of step 4 of `Points::updateTransformedPoints`:
the `i`-th vertex is transformed and written to `m_glData[i * 2]` and
`m_glData[i * 2 + 1]`. -/
def updateVertex (transform : Mat4 K) (deform_transforms : Fin 4 → Mat4 K)
    (p : Points K) (i : Fin 4) : Points K :=
  let final_transform := transform.mul (deform_transforms i)
  let transformed := final_transform.mulVec (Vec4.ofVec2 (p.m_originalPoints i) 0 1)
  let gl := Function.update p.m_glData ⟨i.val * 2, by omega⟩ transformed.x
  let gl := Function.update gl ⟨i.val * 2 + 1, by omega⟩ transformed.y
  { p with m_glData := gl }

/-- The method `Points::updateTransformedPoints`. -/
def updateTransformedPoints (g : Prims K) (p : Points K) : Points K :=
  let transform := mainTransform g p
  let deform_transforms := deformTransforms p
  (List.finRange 4).foldl (updateVertex transform deform_transforms) p

/-- The method `Points::calculateCenter`. -/
def calculateCenter (p : Points K) : Points K :=
  let sum : Vec2 K := ⟨0, 0⟩
  let sum := (List.finRange 4).foldl (fun s i => s.add (p.m_originalPoints i)) sum
  { p with m_center := sum.divScalar 4 }

/-- The method `Points::getRawData`: the state after the call and the
contents of the returned array. -/
def getRawData (g : Prims K) (p : Points K) : Points K × (Fin 8 → K) :=
  let p := updateTransformedPoints g p
  (p, p.m_glData)

/-- The object at entry to the body of the constructor
`Points::Points(initialPoints)`, after the copy loop of lines 19-21.  The
members with a default member initialiser have its value; `m_glData` and
`m_deform` have none, so they hold whatever their storage holds, given here
as `glData0` and `deform0`. -/
def memberInit (initialPoints : Fin 8 → K) (glData0 : Fin 8 → K)
    (deform0 : Fin 4 → Vec4 K) : Points K :=
  { m_originalPoints := fun i =>
      ⟨initialPoints ⟨i.val * 2, by omega⟩, initialPoints ⟨i.val * 2 + 1, by omega⟩⟩
    m_glData := glData0
    m_center := ⟨0, 0⟩
    m_translation := ⟨0, 0⟩
    m_scale := ⟨1, 1⟩
    m_deform := deform0
    m_rotationDegrees := 0 }

/-- The constructor `Points::Points(initialPoints)`. -/
def construct (g : Prims K) (initialPoints : Fin 8 → K)
    (glData0 : Fin 8 → K) (deform0 : Fin 4 → Vec4 K) : Points K :=
  let p := memberInit initialPoints glData0 deform0
  let p := calculateCenter p
  updateTransformedPoints g p

end Points

/-- A call of one of the public methods of `class Points`. -/
inductive Call (K : Type) where
  | move (x y : K)
  | scale (scaleX scaleY : K)
  | rotate (degrees : K)
  | reset
  | deform (top bottom left right : K)
  | getRawData

namespace Points

variable {K : Type} [Zero K] [One K] [Add K] [Sub K] [Neg K] [Mul K] [Div K] [OfNat K 4]

/-- The effect of one method call on the object. -/
def call (g : Prims K) (p : Points K) : Call K → Points K
  | .move x y => p.move x y
  | .scale sx sy => p.scale sx sy
  | .rotate d => p.rotate d
  | .reset => p.reset
  | .deform t b l r => p.deform t b l r
  | .getRawData => (p.getRawData g).1

/-- The effect of a sequence of method calls, first call first. -/
def runCalls (g : Prims K) (p : Points K) (calls : List (Call K)) : Points K :=
  calls.foldl (call g) p

/-- The vertex that iteration `i` of the loop of `updateTransformedPoints`
computes: `final_transform * vec4(m_originalPoints[i], 0, 1)`. -/
def transformedVertex (g : Prims K) (p : Points K) (i : Fin 4) : Vec4 K :=
  ((mainTransform g p).mul (deformTransforms p i)).mulVec (Vec4.ofVec2 (p.m_originalPoints i) 0 1)

end Points

/-! ### The transform as the specification words it -/

namespace Spec

variable {K : Type} [Field K]

/-- Translation of a point by a vector. -/
def translateBy (t v : Vec2 K) : Vec2 K := ⟨v.x + t.x, v.y + t.y⟩

/-- Scaling of `x` by `s.x` and of `y` by `s.y`. -/
def scaleBy (s v : Vec2 K) : Vec2 K := ⟨s.x * v.x, s.y * v.y⟩

/-- Counter-clockwise rotation about the Z axis by an angle whose cosine is
`c` and whose sine is `s`. -/
def rotateBy (c s : K) (v : Vec2 K) : Vec2 K := ⟨c * v.x - s * v.y, s * v.x + c * v.y⟩

/-- The composite of section 4.1: translate by the deform offset `d`, translate
by `-C`, scale, rotate, translate by `+C`, translate by `t`. -/
def vertex (c s : K) (t sc C p d : Vec2 K) : Vec2 K :=
  translateBy t (translateBy C (rotateBy c s (scaleBy sc (translateBy C.neg (translateBy d p)))))

end Spec

/-! ## The frame loop of `main` -/

namespace Main

/-- The local array `initialQuad` of `main`. -/
def initialQuad {K : Type} [One K] [Neg K] : Fin 8 → K := ![-1, -1, 1, -1, 1, 1, -1, 1]

/-- The animation variables of `main`: `rot`, `scale[2]`, `pos[2]`,
`trapecional` and `timer`.  The two-element arrays are pairs, index 0 first. -/
structure Anim (K : Type) where
  rot : K
  scale : K × K
  pos : K × K
  trapecional : K
  timer : Int
deriving DecidableEq, Repr

variable {K : Type} [LinearOrderedField K]

/-- The initial values of the animation variables (lines 154-158). -/
def Anim.init : Anim K :=
  { rot := 0, scale := (1, 3 / 10), pos := (0, 4 / 10), trapecional := 0, timer := 0 }

/-- The animation step of the loop body (lines 174-190). -/
def tick (a : Anim K) : Anim K :=
  if a.timer < 500 then
    let a :=
      if a.timer > 200 then
        if a.rot < 90 then
          let rot := a.rot + 5 / 10
          { a with
            rot := rot
            scale := (a.scale.1, 3 / 10 + rot / 90 * (2 / 10))
            pos := (a.pos.1, 4 / 10 - rot / 90 * (4 / 10))
            trapecional := rot / 90 * (3 / 10) }
        else a
      else a
    { a with timer := a.timer + 1 }
  else
    { a with rot := 0, trapecional := 0, timer := 0,
             scale := (a.scale.1, 3 / 10), pos := (a.pos.1, 4 / 10) }

/-- The animation variables after `n` iterations of the loop. -/
def run (n : Nat) : Anim K := tick^[n] Anim.init

/-- The animation variables after `n ≤ 500` iterations, in closed form. -/
def closedForm (n : Nat) : Anim ℚ :=
  let rot : ℚ := ((min 180 (n - 201) : Nat) : ℚ) / 2
  { rot := rot
    scale := (1, 3 / 10 + rot / 90 * (2 / 10))
    pos := (0, 4 / 10 - rot / 90 * (4 / 10))
    trapecional := rot / 90 * (3 / 10)
    timer := n }

/-- The object names obtained before the loop: the framebuffer, its colour
texture, the vertex array of the unit quad and the two shader programs. -/
structure Handles where
  fbo : Nat
  textureColorbuffer : Nat
  quadVAO : Nat
  screenShaderProgram : Nat
  conveerShaderProgram : Nat
deriving DecidableEq, Repr

/-- The graphics and window calls made by the loop body.  A uniform call
carries the program and the name that `glGetUniformLocation` was asked for. -/
inductive GLCall (K : Type) where
  | bindFramebuffer (framebuffer : Nat)
  | enableDepthTest
  | disableDepthTest
  | clearColor (r g b a : K)
  | clear (colorBit depthBit : Bool)
  | useProgram (program : Nat)
  | uniform2fv (program : Nat) (name : String) (count : Nat) (value : Fin 8 → K)
  | uniform2f (program : Nat) (name : String) (v0 v1 : K)
  | bindVertexArray (array : Nat)
  | drawArraysTriangles (first count : Nat)
  | bindTexture2D (texture : Nat)
  | swapBuffers
  | pollEvents

/-- The constants `SCR_WIDTH` and `SCR_HEIGHT`. -/
def SCR_WIDTH : Nat := 800

/-- The constant `SCR_HEIGHT`. -/
def SCR_HEIGHT : Nat := 800

/-- The record of a call: it is appended to the calls made so far. -/
def emit (log : List (GLCall K)) (c : GLCall K) : List (GLCall K) := log ++ [c]

/-- One iteration of the render loop (lines 163-213), statement by
statement: the new animation variables, the new state of `conveerQuad`, and
the calls made, in the order in which they are made. -/
def frame (g : Prims K) (h : Handles) (a : Anim K) (conveerQuad : Points K) :
    Anim K × Points K × List (GLCall K) :=
  let log : List (GLCall K) := []
  let log := emit log (.bindFramebuffer h.fbo)
  let log := emit log .enableDepthTest
  let log := emit log (.clearColor (1 / 10) (1 / 10) (1 / 10) 1)
  let log := emit log (.clear true true)
  let log := emit log (.useProgram h.conveerShaderProgram)
  let a := tick a
  let conveerQuad := conveerQuad.move a.pos.1 a.pos.2
  let conveerQuad := conveerQuad.rotate a.rot
  let conveerQuad := conveerQuad.scale a.scale.1 a.scale.2
  let conveerQuad := conveerQuad.deform 0 0 a.trapecional (-a.trapecional)
  let r := conveerQuad.getRawData g
  let conveerQuad := r.1
  let log := emit log (.uniform2fv h.conveerShaderProgram "points" 4 r.2)
  let log := emit log (.bindVertexArray h.quadVAO)
  let log := emit log (.drawArraysTriangles 0 6)
  let log := emit log (.bindFramebuffer 0)
  let log := emit log .disableDepthTest
  let log := emit log (.clearColor 1 1 1 1)
  let log := emit log (.clear true false)
  let log := emit log (.useProgram h.screenShaderProgram)
  let log := emit log (.uniform2f h.screenShaderProgram "windowSize" SCR_WIDTH SCR_HEIGHT)
  let log := emit log (.bindTexture2D h.textureColorbuffer)
  let log := emit log (.drawArraysTriangles 0 6)
  let log := emit log .swapBuffers
  let log := emit log .pollEvents
  (a, conveerQuad, log)

/-! ### The meaning of the calls

What the calls of the loop do to the graphics state, after the OpenGL
specification, as far as render targets, programs, uniforms and the sampled
texture are concerned. -/

/-- A value stored in a uniform variable of a program. -/
inductive UniformValue (K : Type) where
  | vec2 (v0 v1 : K)
  | vec2Array (count : Nat) (value : Fin 8 → K)

/-- The contents of a colour buffer, as the history of what produced it: a
clear to a colour, or a draw of `count` vertices over earlier contents with a
program, the uniform values of that program and the contents of the texture
bound for sampling at the time of the draw. -/
inductive Image (K : Type) where
  | cleared (r g b a : K)
  | drawn (under : Image K) (program : Nat) (uniforms : String → Option (UniformValue K))
      (sampled : Image K) (count : Nat)

/-- The part of the graphics state that the calls of the loop read or write. -/
structure GLState (K : Type) where
  drawFramebuffer : Nat
  depthTest : Bool
  clearColor : K × K × K × K
  program : Nat
  uniforms : Nat → String → Option (UniformValue K)
  vertexArray : Nat
  texture2D : Nat
  texImage : Nat → Image K
  backBuffer : Image K
  frontBuffer : Image K

/-- A write to the colour buffer of the bound draw framebuffer: the back
buffer for framebuffer 0, the attached texture `textureColorbuffer` for
`fbo` (attached at line 116); other framebuffers do not exist. -/
def GLState.writeColor (h : Handles) (s : GLState K) (f : Image K → Image K) : GLState K :=
  if s.drawFramebuffer = 0 then { s with backBuffer := f s.backBuffer }
  else if s.drawFramebuffer = h.fbo then
    let image := f (s.texImage h.textureColorbuffer)
    { s with texImage := Function.update s.texImage h.textureColorbuffer image }
  else s

/-- The effect of one call on the graphics state. -/
def GLState.exec (h : Handles) (s : GLState K) : GLCall K → GLState K
  | .bindFramebuffer fb => { s with drawFramebuffer := fb }
  | .enableDepthTest => { s with depthTest := true }
  | .disableDepthTest => { s with depthTest := false }
  | .clearColor r g b a => { s with clearColor := (r, g, b, a) }
  | .clear colorBit _ =>
    if colorBit then
      s.writeColor h (fun _ =>
        .cleared s.clearColor.1 s.clearColor.2.1 s.clearColor.2.2.1 s.clearColor.2.2.2)
    else s
  | .useProgram p => { s with program := p }
  | .uniform2fv p name count value =>
    if s.program = p then
      let table := Function.update (s.uniforms p) name (some (.vec2Array count value))
      { s with uniforms := Function.update s.uniforms p table }
    else s
  | .uniform2f p name v0 v1 =>
    if s.program = p then
      let table := Function.update (s.uniforms p) name (some (.vec2 v0 v1))
      { s with uniforms := Function.update s.uniforms p table }
    else s
  | .bindVertexArray va => { s with vertexArray := va }
  | .drawArraysTriangles _ count =>
    s.writeColor h (fun under =>
      .drawn under s.program (s.uniforms s.program) (s.texImage s.texture2D) count)
  | .bindTexture2D t => { s with texture2D := t }
  | .swapBuffers => { s with frontBuffer := s.backBuffer }
  | .pollEvents => s

/-- The effect of a sequence of calls, first call first. -/
def GLState.execAll (h : Handles) (s : GLState K) (calls : List (GLCall K)) : GLState K :=
  calls.foldl (GLState.exec h) s

/-- Whether a call is one of the operations of section 4.3: binding a render
target, clearing, activating a shader, a uniform upload, binding a texture
for sampling, a draw, or the buffer swap. -/
def GLCall.isPipelineOp : GLCall K → Bool
  | .bindFramebuffer _ => true
  | .clear _ _ => true
  | .useProgram _ => true
  | .uniform2fv _ _ _ _ => true
  | .uniform2f _ _ _ _ => true
  | .drawArraysTriangles _ _ => true
  | .bindTexture2D _ => true
  | .swapBuffers => true
  | _ => false

end Main

namespace Spec

variable {K : Type} [LinearOrderedField K]

open Main

/-- Pass A of section 4.3: bind the offscreen target, clear, activate the
panel shader, upload the transformed vertices as `points`, draw the unit
quad. -/
def passA (h : Handles) (vertices : Fin 8 → K) : List (GLCall K) :=
  [ .bindFramebuffer h.fbo,
    .clear true true,
    .useProgram h.conveerShaderProgram,
    .uniform2fv h.conveerShaderProgram "points" 4 vertices,
    .drawArraysTriangles 0 6 ]

/-- Pass B of section 4.3: bind the default target, clear, activate the
composite shader, upload the window size as `windowSize`, bind the offscreen
colour texture, draw the unit quad. -/
def passB (h : Handles) : List (GLCall K) :=
  [ .bindFramebuffer 0,
    .clear true false,
    .useProgram h.screenShaderProgram,
    .uniform2f h.screenShaderProgram "windowSize" 800 800,
    .bindTexture2D h.textureColorbuffer,
    .drawArraysTriangles 0 6 ]

end Spec

/-! ## Theorems

### Binary32 arithmetic -/

namespace F32

/-- Zero is a binary32 value. -/
theorem round_zero : round 0 = fin 0 := by decide!

/-- One is a binary32 value. -/
theorem round_one : round 1 = fin 1 := by decide!

/-- Rounding commutes with negation. -/
theorem round_neg (q : ℚ) : round (-q) = neg (round q) := by
  unfold round
  by_cases h : q.num = 0
  · simp [h, neg]
  · simp only [Rat.neg_num, Rat.neg_den, Int.natAbs_neg, neg_eq_zero, h, if_false]
    have hs : q.num < 0 ∨ 0 < q.num := lt_or_gt_of_ne h
    cases roundMag q.num.natAbs q.den with
    | none =>
      simp only [neg]
      congr 1
      rcases hs with h1 | h1
      · have h2 : ¬ (0 < q.num) := by omega
        simp [h1, h2]
      · have h2 : ¬ (q.num < 0) := by omega
        simp [h1, h2]
    | some m =>
      simp only [neg]
      congr 1
      rcases hs with h1 | h1
      · have h2 : ¬ (0 < q.num) := by omega
        simp [h1, h2]
      · have h2 : ¬ (q.num < 0) := by omega
        simp [h1, h2]

/-- The opposite of a binary32 value is a binary32 value. -/
theorem round_neg_of {q : ℚ} (h : round q = fin q) : round (-q) = fin (-q) := by
  rw [round_neg, h]; rfl

/-- The literal of `glm::radians` as a binary32 value. -/
theorem degToRad_eq : F32.prims.degToRad = fin (9370165 / 536870912) := by decide!

theorem zero_def : (0 : F32) = fin 0 := rfl

theorem one_def : (1 : F32) = fin 1 := rfl

theorem fin_add (a b : ℚ) : (fin a + fin b : F32) = round (a + b) := rfl

theorem fin_mul (a b : ℚ) : (fin a * fin b : F32) = round (a * b) := rfl

theorem fin_sub (a b : ℚ) : (fin a - fin b : F32) = round (a + -b) := rfl

theorem neg_fin (a : ℚ) : (-(fin a) : F32) = fin (-a) := rfl

end F32

/-! ### The transform engine -/

namespace Points

section Generic
variable {K : Type} [Zero K] [One K] [Add K] [Sub K] [Neg K] [Mul K]

/-- The recomputation writes `m_glData` only. -/
theorem updateTransformedPoints_fields (g : Prims K) (p : Points K) :
    (updateTransformedPoints g p).m_originalPoints = p.m_originalPoints ∧
    (updateTransformedPoints g p).m_center = p.m_center ∧
    (updateTransformedPoints g p).m_translation = p.m_translation ∧
    (updateTransformedPoints g p).m_scale = p.m_scale ∧
    (updateTransformedPoints g p).m_deform = p.m_deform ∧
    (updateTransformedPoints g p).m_rotationDegrees = p.m_rotationDegrees :=
  ⟨rfl, rfl, rfl, rfl, rfl, rfl⟩

/-- After the loop, the entries `2i` and `2i+1` of `m_glData` are the x and y of
the vertex of iteration `i`: no later iteration overwrites them. -/
theorem glData_loop (g : Prims K) (p : Points K) (i : Fin 4) :
    (updateTransformedPoints g p).m_glData ⟨i.val * 2, by omega⟩ = (transformedVertex g p i).x ∧
    (updateTransformedPoints g p).m_glData ⟨i.val * 2 + 1, by omega⟩
      = (transformedVertex g p i).y := by
  fin_cases i <;> exact ⟨rfl, rfl⟩

/-- The whole array after the recomputation. -/
theorem glData_eq (g : Prims K) (p : Points K) :
    (updateTransformedPoints g p).m_glData = fun j =>
      if j.val % 2 = 0 then (transformedVertex g p ⟨j.val / 2, by omega⟩).x
      else (transformedVertex g p ⟨j.val / 2, by omega⟩).y := by
  funext j
  fin_cases j <;> rfl

/-- No method changes the base points or the centre. -/
theorem call_fixed (g : Prims K) (p : Points K) (c : Call K) :
    (call g p c).m_originalPoints = p.m_originalPoints ∧ (call g p c).m_center = p.m_center := by
  cases c <;> exact ⟨rfl, rfl⟩

/-- No sequence of method calls changes the base points or the centre. -/
theorem runCalls_fixed (g : Prims K) (calls : List (Call K)) (p : Points K) :
    (runCalls g p calls).m_originalPoints = p.m_originalPoints ∧
    (runCalls g p calls).m_center = p.m_center := by
  induction calls generalizing p with
  | nil => exact ⟨rfl, rfl⟩
  | cons c cs ih =>
    have h := ih (call g p c)
    have h2 := call_fixed g p c
    simp only [runCalls, List.foldl_cons] at h ⊢
    exact ⟨h.1.trans h2.1, h.2.trans h2.2⟩

end Generic

section Exact
variable {K : Type} [Field K]

/-- The matrix `transform` written out, for a normalisation that leaves the unit
axis `(0, 0, 1)` as it is. -/
theorem mainTransform_eq (g : Prims K) (hq : g.inversesqrt 1 = 1) (p : Points K) :
    mainTransform g p =
      let c := g.cos (radians g p.m_rotationDegrees)
      let s := g.sin (radians g p.m_rotationDegrees)
      ⟨⟨c * p.m_scale.x, s * p.m_scale.x, 0, 0⟩,
       ⟨-s * p.m_scale.y, c * p.m_scale.y, 0, 0⟩,
       ⟨0, 0, 1, 0⟩,
       ⟨p.m_translation.x + p.m_center.x
          - (c * p.m_scale.x * p.m_center.x - s * p.m_scale.y * p.m_center.y),
        p.m_translation.y + p.m_center.y
          - (s * p.m_scale.x * p.m_center.x + c * p.m_scale.y * p.m_center.y), 0, 1⟩⟩ := by
  simp only [mainTransform, Glm.translate, Glm.rotate, Glm.scale, Mat4.one, Vec4.add, Vec4.smul,
    Vec3.smul, Vec3.dot, Vec3.ofVec2, Vec2.neg, Glm.normalize, mul_zero, zero_mul, mul_one,
    one_mul, add_zero, zero_add, hq, sub_zero, zero_sub]
  simp only [Mat4.mk.injEq, Vec4.mk.injEq]
  repeat' constructor
  all_goals ring

/-- The vertex of iteration `i` is the composite of the specification, with
`m_center` as pivot. -/
theorem transformedVertex_eq (g : Prims K) (hq : g.inversesqrt 1 = 1) (p : Points K) (i : Fin 4) :
    (transformedVertex g p i).x =
      (Spec.vertex (g.cos (radians g p.m_rotationDegrees)) (g.sin (radians g p.m_rotationDegrees))
        p.m_translation p.m_scale p.m_center (p.m_originalPoints i)
        ⟨(p.m_deform i).x, (p.m_deform i).y⟩).x ∧
    (transformedVertex g p i).y =
      (Spec.vertex (g.cos (radians g p.m_rotationDegrees)) (g.sin (radians g p.m_rotationDegrees))
        p.m_translation p.m_scale p.m_center (p.m_originalPoints i)
        ⟨(p.m_deform i).x, (p.m_deform i).y⟩).y := by
  rw [transformedVertex, mainTransform_eq g hq]
  fin_cases i <;>
    simp [deformTransforms, array4, Glm.translate, Mat4.mul, Mat4.mulVec,
      Mat4.one, Vec4.add, Vec4.smul, Vec3.ofVec4, Vec4.ofVec2, Spec.vertex, Spec.translateBy,
      Spec.rotateBy, Spec.scaleBy, Vec2.neg] <;> constructor <;> ring

/-- Every transform state is the state of a reachable object: construct with
the deform storage holding `d`, then `move`, `scale`, `rotate`. -/
theorem state_reachable (g : Prims K) (initialPoints glData0 : Fin 8 → K) (t sc : Vec2 K)
    (r : K) (d : Fin 4 → Vec4 K) :
    let p := runCalls g (construct g initialPoints glData0 d)
      [.move t.x t.y, .scale sc.x sc.y, .rotate r]
    p.m_translation = t ∧ p.m_scale = sc ∧ p.m_rotationDegrees = r ∧ p.m_deform = d :=
  ⟨rfl, rfl, rfl, rfl⟩

/-- Over the reals, `inversesqrt 1 = 1`. -/
theorem real_inversesqrt_one :
    (Prims.mk Real.cos Real.sin (fun x => (Real.sqrt x)⁻¹) (Real.pi / 180)).inversesqrt 1 = 1 := by
  simp

/-- Over the reals, with the default translation, scale and rotation a vertex
is its base point moved by its deform offset. -/
theorem real_default_vertex (p : Points ℝ) (ht : p.m_translation = ⟨0, 0⟩)
    (hs : p.m_scale = ⟨1, 1⟩) (hr : p.m_rotationDegrees = 0) (i : Fin 4) :
    (transformedVertex ⟨Real.cos, Real.sin, fun x => (Real.sqrt x)⁻¹, Real.pi / 180⟩ p i).x
      = (p.m_originalPoints i).x + (p.m_deform i).x ∧
    (transformedVertex ⟨Real.cos, Real.sin, fun x => (Real.sqrt x)⁻¹, Real.pi / 180⟩ p i).y
      = (p.m_originalPoints i).y + (p.m_deform i).y := by
  have hv := transformedVertex_eq _ real_inversesqrt_one p i
  rw [hv.1, hv.2]
  simp [ht, hs, hr, Spec.vertex, Spec.translateBy, Spec.rotateBy, Spec.scaleBy, Vec2.neg, radians]

/-- Claim C2: after `deform(top, bottom, left, right)` the stored offsets are
`(-bottom, -left)`, `(bottom, -right)`, `(top, right)`, `(-top, left)` for the
vertices 0 to 3, with zero z and w, and translation, scale, rotation, base
points and centre are unchanged. -/
theorem deform_offsets (p : Points K) (top bottom left right : K) :
    (p.deform top bottom left right).m_deform 0 = ⟨-bottom, -left, 0, 0⟩ ∧
    (p.deform top bottom left right).m_deform 1 = ⟨bottom, -right, 0, 0⟩ ∧
    (p.deform top bottom left right).m_deform 2 = ⟨top, right, 0, 0⟩ ∧
    (p.deform top bottom left right).m_deform 3 = ⟨-top, left, 0, 0⟩ ∧
    (p.deform top bottom left right).m_translation = p.m_translation ∧
    (p.deform top bottom left right).m_scale = p.m_scale ∧
    (p.deform top bottom left right).m_rotationDegrees = p.m_rotationDegrees ∧
    (p.deform top bottom left right).m_originalPoints = p.m_originalPoints ∧
    (p.deform top bottom left right).m_center = p.m_center :=
  ⟨rfl, rfl, rfl, rfl, rfl, rfl, rfl, rfl, rfl⟩

/-- Claim C8: over the reals, for every object (any base quad, translation,
scale and deform offsets) `getRawData` after `rotate(360)` returns the same
eight coordinates as after `rotate(0)`. -/
theorem getRawData_rotate_360 (p : Points ℝ) :
    let g : Prims ℝ := ⟨Real.cos, Real.sin, fun x => (Real.sqrt x)⁻¹, Real.pi / 180⟩
    (getRawData g (p.rotate 360)).2 = (getRawData g (p.rotate 0)).2 := by
  intro g
  have h360 : (360 : ℝ) * (Real.pi / 180) = 2 * Real.pi := by ring
  have hm : mainTransform g (p.rotate 360) = mainTransform g (p.rotate 0) := by
    rw [mainTransform_eq g real_inversesqrt_one, mainTransform_eq g real_inversesqrt_one]
    simp [g, Points.rotate, radians, h360]
  show (updateTransformedPoints g (p.rotate 360)).m_glData
    = (updateTransformedPoints g (p.rotate 0)).m_glData
  rw [glData_eq, glData_eq]
  funext j
  simp only [transformedVertex, hm]
  rfl

/-- The recomputed array depends on the base points, the centre and the
transform state only. -/
theorem transformedVertex_congr (g : Prims K) (p q : Points K)
    (h1 : p.m_originalPoints = q.m_originalPoints) (h2 : p.m_center = q.m_center)
    (h3 : p.m_translation = q.m_translation) (h4 : p.m_scale = q.m_scale)
    (h5 : p.m_deform = q.m_deform) (h6 : p.m_rotationDegrees = q.m_rotationDegrees) :
    (updateTransformedPoints g p).m_glData = (updateTransformedPoints g q).m_glData := by
  rw [glData_eq, glData_eq]
  simp only [transformedVertex, mainTransform, deformTransforms, h1, h2, h3, h4, h5, h6]

/-- Whatever was called before, `reset` leaves the default transform state,
and the next `getRawData` returns what a construction whose `m_deform`
storage holds zeros computes. -/
theorem reset_restores_defaults (g : Prims K)
    (initialPoints glData0 glData1 : Fin 8 → K) (deform0 : Fin 4 → Vec4 K)
    (calls : List (Call K)) :
    let p := (runCalls g (construct g initialPoints glData0 deform0) calls).reset
    p.m_translation = ⟨0, 0⟩ ∧ p.m_scale = ⟨1, 1⟩ ∧ p.m_rotationDegrees = 0 ∧
    (∀ i, p.m_deform i = ⟨0, 0, 0, 0⟩) ∧
    (getRawData g p).2 = (construct g initialPoints glData1 (fun _ => ⟨0, 0, 0, 0⟩)).m_glData := by
  intro p
  have hfix := runCalls_fixed g calls (construct g initialPoints glData0 deform0)
  refine ⟨rfl, rfl, rfl, ?_, ?_⟩
  · intro i; fin_cases i <;> rfl
  · refine transformedVertex_congr g _ _ hfix.1 hfix.2 rfl rfl ?_ rfl
    funext i; fin_cases i <;> rfl

/-- Claim C5, evaluated where it fails: the quad of `main` constructed while
the storage of `m_deform[0]` holds `(1, 0, 0, 0)`.  `reset` does leave the
default transform state, but the array computed by the constructor, and
returned by `getRawData` right after construction, starts with 0, while the
array returned by `getRawData` after `reset` starts with -1. -/
theorem reset_output_differs_from_construction :
    let g : Prims ℝ := ⟨Real.cos, Real.sin, fun x => (Real.sqrt x)⁻¹, Real.pi / 180⟩
    let p := construct g Main.initialQuad (fun _ => 0)
      (array4 ⟨1, 0, 0, 0⟩ ⟨0, 0, 0, 0⟩ ⟨0, 0, 0, 0⟩ ⟨0, 0, 0, 0⟩)
    (p.reset.m_translation = ⟨0, 0⟩ ∧ p.reset.m_scale = ⟨1, 1⟩ ∧ p.reset.m_rotationDegrees = 0 ∧
      ∀ i, p.reset.m_deform i = ⟨0, 0, 0, 0⟩) ∧
    p.m_glData 0 = 0 ∧ (getRawData g p).2 0 = 0 ∧ (getRawData g p.reset).2 0 = -1 := by
  intro g p
  refine ⟨⟨rfl, rfl, rfl, ?_⟩, ?_, ?_, ?_⟩
  · intro i; fin_cases i <;> rfl
  · have h := (glData_loop g (calculateCenter (memberInit Main.initialQuad (fun _ => 0)
      (array4 ⟨1, 0, 0, 0⟩ ⟨0, 0, 0, 0⟩ ⟨0, 0, 0, 0⟩ ⟨0, 0, 0, 0⟩))) 0).1
    have hv := (real_default_vertex (calculateCenter (memberInit Main.initialQuad (fun _ => 0)
      (array4 ⟨1, 0, 0, 0⟩ ⟨0, 0, 0, 0⟩ ⟨0, 0, 0, 0⟩ ⟨0, 0, 0, 0⟩))) rfl rfl rfl 0).1
    refine (h.trans (hv.trans ?_))
    show (-1 : ℝ) + 1 = 0
    norm_num
  · have h := (glData_loop g p 0).1
    have hv := (real_default_vertex p rfl rfl rfl 0).1
    refine (h.trans (hv.trans ?_))
    show (-1 : ℝ) + 1 = 0
    norm_num
  · have h := (glData_loop g p.reset 0).1
    have hv := (real_default_vertex p.reset rfl rfl rfl 0).1
    refine (h.trans (hv.trans ?_))
    show (-1 : ℝ) + 0 = -1
    norm_num

end Exact

/-! ### The transform engine in binary32 -/

/-- With a finite centre and the default transform state the matrix `transform` is the
identity. -/
theorem mainTransform_default_binary32 (g : Prims F32) (pts : Fin 4 → Vec2 F32)
    (glData0 : Fin 8 → F32) (d : Fin 4 → Vec4 F32) (cx cy : ℚ)
    (hcos : g.cos 0 = 1) (hsin : g.sin 0 = 0) (hinv : g.inversesqrt 1 = 1)
    (hrad : F32.Finite g.degToRad)
    (hx : F32.round cx = F32.fin cx) (hy : F32.round cy = F32.fin cy) :
    mainTransform g
      { m_originalPoints := pts, m_glData := glData0, m_center := ⟨F32.fin cx, F32.fin cy⟩,
        m_translation := ⟨0, 0⟩, m_scale := ⟨1, 1⟩, m_deform := d,
        m_rotationDegrees := 0 } = Mat4.one := by
  obtain ⟨r, hr, -⟩ := hrad
  have h0 : radians g 0 = 0 := by
    simp only [radians, hr, F32.zero_def, F32.fin_mul, zero_mul, F32.round_zero]
  have hnx := F32.round_neg_of hx
  have hny := F32.round_neg_of hy
  simp only [mainTransform, h0, Glm.rotate, hcos, hsin, Glm.normalize, Vec3.dot, Vec3.smul]
  simp only [F32.zero_def, F32.one_def, F32.fin_mul, F32.fin_add, F32.fin_sub, mul_zero,
    zero_mul, mul_one, add_zero, zero_add, F32.round_zero, F32.round_one, neg_zero,
    add_neg_cancel] at hinv ⊢
  simp only [hinv, Glm.translate, Glm.scale, Mat4.one, Vec4.add, Vec4.smul, Vec3.ofVec2,
    Vec2.neg, F32.zero_def, F32.one_def, F32.fin_mul, F32.fin_add, F32.fin_sub, F32.neg_fin,
    mul_zero, zero_mul, mul_one, one_mul, add_zero, zero_add, F32.round_zero, F32.round_one,
    neg_zero, add_neg_cancel, neg_add_cancel, hx, hy, hnx, hny]

/-- Claim C6 fails in binary32.  For a quad with the finite x coordinates
`2^127` and `3 * 2^126` the sum in `calculateCenter` overflows, the centre
is infinite, and in the default transform state `getRawData` returns eight
NaN instead of the base coordinates. -/
theorem getRawData_identity_overflow :
    let quad : Fin 8 → ℚ := ![2 ^ 127, -1, 3 * 2 ^ 126, -1, 3 * 2 ^ 126, 1, 2 ^ 127, 1]
    let p := (construct F32.prims (fun j => F32.fin (quad j)) (fun _ => 0)
      (fun _ => ⟨0, 0, 0, 0⟩)).reset
    (∀ j, F32.round (quad j) = F32.fin (quad j)) ∧
    (p.m_translation = ⟨0, 0⟩ ∧ p.m_scale = ⟨1, 1⟩ ∧ p.m_rotationDegrees = 0 ∧
      ∀ i, p.m_deform i = ⟨0, 0, 0, 0⟩) ∧
    p.m_originalPoints 0 = ⟨F32.fin (2 ^ 127), F32.fin (-1)⟩ ∧
    p.m_center.x = F32.inf false ∧
    (∀ j, (getRawData F32.prims p).2 j = F32.nan) := by
  decide!

/-- Claim C6, amended, in binary32: for any four base points with finite
coordinates and any finite centre, with rotation 0, scale `(1, 1)`,
translation `(0, 0)` and zero deform offsets, `getRawData` returns exactly
the base coordinates, vertex by vertex in base-point order.  The math
library enters through `cos 0 = 1`, `sin 0 = 0`, `inversesqrt 1 = 1` and a
finite factor of `radians`. -/
theorem getRawData_identity_binary32 (g : Prims F32) (pts : Fin 4 → Vec2 F32) (C : Vec2 F32)
    (glData0 : Fin 8 → F32)
    (hcos : g.cos 0 = 1) (hsin : g.sin 0 = 0) (hinv : g.inversesqrt 1 = 1)
    (hrad : F32.Finite g.degToRad)
    (hpts : ∀ j, F32.Finite (pts j).x ∧ F32.Finite (pts j).y)
    (hC : F32.Finite C.x ∧ F32.Finite C.y) (i : Fin 4) :
    let p : Points F32 :=
      { m_originalPoints := pts, m_glData := glData0, m_center := C,
        m_translation := ⟨0, 0⟩, m_scale := ⟨1, 1⟩, m_deform := fun _ => ⟨0, 0, 0, 0⟩,
        m_rotationDegrees := 0 }
    (getRawData g p).2 ⟨i.val * 2, by omega⟩ = (pts i).x ∧
      (getRawData g p).2 ⟨i.val * 2 + 1, by omega⟩ = (pts i).y := by
  intro p
  obtain ⟨⟨cx, hcx, rcx⟩, ⟨cy, hcy, rcy⟩⟩ := hC
  obtain ⟨⟨px, hpx, rpx⟩, ⟨py, hpy, rpy⟩⟩ := hpts i
  have hCe : C = ⟨F32.fin cx, F32.fin cy⟩ := by
    cases C; simp only [Vec2.mk.injEq]; exact ⟨hcx, hcy⟩
  have hm : mainTransform g p = Mat4.one := by
    simp only [p, hCe]
    exact mainTransform_default_binary32 g pts glData0 _ cx cy hcos hsin hinv hrad rcx rcy
  have hd : deformTransforms p i = Mat4.one := by
    fin_cases i <;>
      simp only [deformTransforms, array4, p, Glm.translate, Mat4.one, Vec4.add, Vec4.smul,
        Vec3.ofVec4, F32.zero_def, F32.one_def, F32.fin_mul, F32.fin_add, mul_zero, zero_mul,
        mul_one, add_zero, zero_add, F32.round_zero, F32.round_one]
  have hv : transformedVertex g p i = ⟨(pts i).x, (pts i).y, 0, 1⟩ := by
    have hpe : p.m_originalPoints i = ⟨F32.fin px, F32.fin py⟩ := by
      show pts i = _
      cases h : pts i
      rw [h] at hpx hpy
      simp only [Vec2.mk.injEq]; exact ⟨hpx, hpy⟩
    rw [transformedVertex, hm, hd, hpe, hpx, hpy]
    simp only [Mat4.mul, Mat4.mulVec, Mat4.one, Vec4.add, Vec4.smul, Vec4.ofVec2,
      F32.zero_def, F32.one_def, F32.fin_mul, F32.fin_add, mul_zero, zero_mul, mul_one, one_mul,
      add_zero, zero_add, F32.round_zero, F32.round_one, rpx, rpy]
  have hl := glData_loop g p i
  rw [hv] at hl
  exact hl

/-- The amended claim C6 for the quad of `main` with centre `(0, 0)`, at
vertex 2. -/
theorem getRawData_identity_binary32_witness :
    let pts : Fin 4 → Vec2 F32 := fun j =>
      ⟨Main.initialQuad ⟨j.val * 2, by omega⟩, Main.initialQuad ⟨j.val * 2 + 1, by omega⟩⟩
    let p : Points F32 :=
      { m_originalPoints := pts, m_glData := fun _ => 0, m_center := ⟨0, 0⟩,
        m_translation := ⟨0, 0⟩, m_scale := ⟨1, 1⟩, m_deform := fun _ => ⟨0, 0, 0, 0⟩,
        m_rotationDegrees := 0 }
    (F32.prims.cos 0 = 1 ∧ F32.prims.sin 0 = 0 ∧ F32.prims.inversesqrt 1 = 1 ∧
      F32.Finite F32.prims.degToRad ∧ (∀ j, F32.Finite (pts j).x ∧ F32.Finite (pts j).y) ∧
      F32.Finite (0 : F32)) ∧
    (getRawData F32.prims p).2 ⟨(2 : Fin 4).val * 2, by omega⟩ = (pts 2).x ∧
      (getRawData F32.prims p).2 ⟨(2 : Fin 4).val * 2 + 1, by omega⟩ = (pts 2).y := by
  intro pts p
  have h1 : F32.prims.cos 0 = 1 := by decide!
  have h2 : F32.prims.sin 0 = 0 := by decide!
  have h3 : F32.prims.inversesqrt 1 = 1 := by decide!
  have h4 : F32.Finite F32.prims.degToRad := ⟨_, F32.degToRad_eq, by decide!⟩
  have h5 : ∀ j, F32.Finite (pts j).x ∧ F32.Finite (pts j).y := by
    intro j
    fin_cases j
    · exact ⟨⟨-1, rfl, by decide!⟩, ⟨-1, rfl, by decide!⟩⟩
    · exact ⟨⟨1, rfl, by decide!⟩, ⟨-1, rfl, by decide!⟩⟩
    · exact ⟨⟨1, rfl, by decide!⟩, ⟨1, rfl, by decide!⟩⟩
    · exact ⟨⟨-1, rfl, by decide!⟩, ⟨1, rfl, by decide!⟩⟩
  have h6 : F32.Finite (0 : F32) := ⟨0, rfl, by decide!⟩
  exact ⟨⟨h1, h2, h3, h4, h5, h6⟩,
    getRawData_identity_binary32 F32.prims pts ⟨0, 0⟩ (fun _ => 0) h1 h2 h3 h4 h5 ⟨h6, h6⟩ 2⟩

end Points

/-! ### The animation variables -/

namespace Main

/-- One more iteration is one more tick. -/
theorem run_succ {K : Type} [LinearOrderedField K] (n : Nat) :
    (run (n + 1) : Anim K) = tick (run n) := by
  simp only [run, Function.iterate_succ_apply']

/-- A tick takes the closed form at `n < 500` to the closed form at `n + 1`. -/
theorem tick_closedForm (n : Nat) (h : n < 500) : tick (closedForm n) = closedForm (n + 1) := by
  have ht : ((n : Int) < 500) := by exact_mod_cast h
  rcases Nat.lt_or_ge n 201 with h1 | h1
  · have e1 : min 180 (n - 201) = 0 := by omega
    have e2 : min 180 (n + 1 - 201) = 0 := by omega
    have h3 : ¬ ((n : Int) > 200) := by omega
    simp only [tick, closedForm, e1, e2, ht, h3, if_true, if_false]
    norm_num
  · rcases Nat.lt_or_ge n 381 with h2 | h2
    · obtain ⟨k, rfl⟩ : ∃ k, n = 201 + k := ⟨n - 201, by omega⟩
      have e1 : min 180 (201 + k - 201) = k := by omega
      have e2 : min 180 (201 + k + 1 - 201) = k + 1 := by omega
      have h3 : ((201 + k : Nat) : Int) > 200 := by omega
      have hk : (k : ℚ) < 180 := by exact_mod_cast (show k < 180 by omega)
      have h4 : (k : ℚ) / 2 < 90 := by linarith
      simp only [tick, closedForm, e1, e2, ht, h3, h4, if_true]
      simp only [Anim.mk.injEq, Prod.mk.injEq]
      push_cast
      refine ⟨?_, ⟨trivial, ?_⟩, ⟨trivial, ?_⟩, ?_, ?_⟩ <;> ring
    · have e1 : min 180 (n - 201) = 180 := by omega
      have e2 : min 180 (n + 1 - 201) = 180 := by omega
      have h3 : ((n : Int) > 200) := by omega
      simp only [tick, closedForm, e1, e2, ht, h3, if_true]
      norm_num

/-- The state after `n ≤ 500` ticks is the closed form. -/
theorem run_eq_closedForm (n : Nat) (h : n ≤ 500) : (run n : Anim ℚ) = closedForm n := by
  induction n with
  | zero => simp [run, closedForm, Anim.init]
  | succ k ih => rw [run_succ, ih (by omega), tick_closedForm k (by omega)]

/-- The state after 501 ticks is the initial state. -/
theorem run_501 : (run 501 : Anim ℚ) = Anim.init := by
  rw [run_succ, run_eq_closedForm 500 (by norm_num)]
  simp [tick, closedForm, Anim.init]

/-- The states repeat every 501 ticks. -/
theorem run_add_501 (n : Nat) : (run (n + 501) : Anim ℚ) = run n := by
  simp only [run, Function.iterate_add_apply]
  have := run_501
  simp only [run] at this
  rw [this]

/-- The state after `n` ticks is the state after `n mod 501` ticks. -/
theorem run_mod (n : Nat) : (run n : Anim ℚ) = run (n % 501) := by
  induction n using Nat.strong_induction_on with
  | _ n ih =>
    rcases Nat.lt_or_ge n 501 with h | h
    · rw [Nat.mod_eq_of_lt h]
    · obtain ⟨m, rfl⟩ : ∃ m, n = m + 501 := ⟨n - 501, by omega⟩
      rw [run_add_501, ih m (by omega), Nat.add_mod_right]

/-- Claim C3 fails: after exactly 500 ticks from the initial state the counter
is 500, the rotation 90 and the derived values are the terminal ones, so the
state is not the initial state. -/
theorem run_500_ne_init :
    (tick^[500] Anim.init : Anim ℚ) = ⟨90, (1, 1 / 2), (0, 0), 3 / 10, 500⟩ ∧
    (tick^[500] Anim.init : Anim ℚ) ≠ Anim.init := by
  have h : (tick^[500] Anim.init : Anim ℚ) = closedForm 500 := run_eq_closedForm 500 (by norm_num)
  rw [h]
  constructor
  · simp only [closedForm]; norm_num
  · intro hc
    have := congrArg Anim.timer hc
    simp [closedForm, Anim.init] at this

/-- Claim C3, amended: applying the tick exactly 501 times from the initial
state yields the initial state again, in every field. -/
theorem tick_501_returns_to_init : (tick^[501] Anim.init : Anim ℚ) = Anim.init := run_501

/-- Claim C4 fails: the rotation is still 0 after 199, 200 and 201 ticks (the
ticks at counter 199 and 200 do not increase it), and after 290 ticks it is
44.5, below 90, and the next tick changes scaleY, positionY and the
trapezoid factor. -/
theorem rotation_schedule_counterexample :
    (run 199 : Anim ℚ).rot = 0 ∧ (run 200 : Anim ℚ).rot = 0 ∧ (run 201 : Anim ℚ).rot = 0 ∧
    (run 290 : Anim ℚ).rot = 89 / 2 ∧ (run 290 : Anim ℚ).rot < 90 ∧
    (tick (run 290) : Anim ℚ).scale.2 ≠ (run 290 : Anim ℚ).scale.2 ∧
    (tick (run 290) : Anim ℚ).pos.2 ≠ (run 290 : Anim ℚ).pos.2 ∧
    (tick (run 290) : Anim ℚ).trapecional ≠ (run 290 : Anim ℚ).trapecional := by
  rw [← run_succ, run_eq_closedForm 199 (by norm_num), run_eq_closedForm 200 (by norm_num),
    run_eq_closedForm 201 (by norm_num), run_eq_closedForm 290 (by norm_num),
    run_eq_closedForm 291 (by norm_num)]
  simp only [closedForm]
  norm_num

/-- Claim C4, amended: the rotation strictly increases, by 0.5, on each of the
180 ticks made at counter values in `[201, 381)`; and for every `n` with
`381 ≤ n < 500` the rotation after `n` ticks is at least 90 and the tick
leaves scaleY, positionY and the trapezoid factor unchanged. -/
theorem rotation_schedule (n : Nat) :
    (201 ≤ n → n < 381 →
      (run (n + 1) : Anim ℚ).rot = (run n : Anim ℚ).rot + 1 / 2 ∧
      (run n : Anim ℚ).rot < (run (n + 1) : Anim ℚ).rot) ∧
    (381 ≤ n → n < 500 →
      (run n : Anim ℚ).rot ≥ 90 ∧
      (tick (run n) : Anim ℚ).scale.2 = (run n : Anim ℚ).scale.2 ∧
      (tick (run n) : Anim ℚ).pos.2 = (run n : Anim ℚ).pos.2 ∧
      (tick (run n) : Anim ℚ).trapecional = (run n : Anim ℚ).trapecional) := by
  constructor
  · intro h1 h2
    rw [run_eq_closedForm n (by omega), run_eq_closedForm (n + 1) (by omega)]
    have e1 : min 180 (n - 201) = n - 201 := by omega
    have e2 : min 180 (n + 1 - 201) = n - 201 + 1 := by omega
    simp only [closedForm, e1, e2]
    push_cast
    constructor <;> linarith
  · intro h1 h2
    rw [← run_succ, run_eq_closedForm n (by omega), run_eq_closedForm (n + 1) (by omega)]
    have e1 : min 180 (n - 201) = 180 := by omega
    have e2 : min 180 (n + 1 - 201) = 180 := by omega
    simp only [closedForm, e1, e2]
    norm_num

/-- The amended claim C4 at the ticks 201 and 381. -/
theorem rotation_schedule_witness :
    ((201 : Nat) ≤ 201 ∧ (201 : Nat) < 381 ∧ (run 201 : Anim ℚ).rot < (run (201 + 1) : Anim ℚ).rot) ∧
    ((381 : Nat) ≤ 381 ∧ (381 : Nat) < 500 ∧ (run 381 : Anim ℚ).rot ≥ 90 ∧
      (tick (run 381) : Anim ℚ).scale.2 = (run 381 : Anim ℚ).scale.2) :=
  ⟨⟨by decide, by decide, ((rotation_schedule 201).1 (by decide) (by decide)).2⟩,
   ⟨by decide, by decide, ((rotation_schedule 381).2 (by decide) (by decide)).1,
    ((rotation_schedule 381).2 (by decide) (by decide)).2.1⟩⟩

/-- Claim C10: for `n ≤ 500` the state after `n` ticks has `timer = n` and
`rot = 0.5 * min(180, max(0, n - 201))`; the rotation is 0 up to 201 ticks
and 0.5 after 202, below 90 before 381 ticks and 90 after 381; the counter
reaches 500; the 501st tick gives back the initial state; the state after
`n` ticks depends only on `n mod 501`, and no positive number of ticks below
501 gives back the initial state. -/
theorem tick_schedule_period_501 :
    (∀ n : Nat, n ≤ 500 →
      (run n : Anim ℚ).timer = n ∧
      (run n : Anim ℚ).rot = (1 / 2) * ((min 180 (max 0 ((n : Int) - 201)) : Int) : ℚ)) ∧
    ((∀ n : Nat, n ≤ 201 → (run n : Anim ℚ).rot = 0) ∧ (run 202 : Anim ℚ).rot = 1 / 2) ∧
    ((∀ n : Nat, n < 381 → (run n : Anim ℚ).rot < 90) ∧ (run 381 : Anim ℚ).rot = 90) ∧
    (run 500 : Anim ℚ).timer = 500 ∧
    (tick (run 500) : Anim ℚ) = Anim.init ∧
    (∀ n : Nat, (run n : Anim ℚ) = run (n % 501)) ∧
    (∀ n : Nat, (run (n + 501) : Anim ℚ) = run n) ∧
    (∀ p : Nat, 0 < p → p < 501 → (run p : Anim ℚ) ≠ Anim.init) := by
  have key : ∀ n : Nat, n ≤ 500 →
      (run n : Anim ℚ).timer = n ∧
      (run n : Anim ℚ).rot = (1 / 2) * ((min 180 (max 0 ((n : Int) - 201)) : Int) : ℚ) := by
    intro n hn
    rw [run_eq_closedForm n hn]
    refine ⟨rfl, ?_⟩
    have e : ((min 180 (n - 201) : Nat) : Int) = min 180 (max 0 ((n : Int) - 201)) := by omega
    simp only [closedForm]
    rw [← e]
    push_cast
    ring
  refine ⟨key, ⟨?_, ?_⟩, ⟨?_, ?_⟩, (key 500 (by norm_num)).1, ?_, run_mod, run_add_501, ?_⟩
  · intro n hn
    rw [(key n (by omega)).2]
    have e : min 180 (max 0 ((n : Int) - 201)) = 0 := by omega
    rw [e]; norm_num
  · rw [(key 202 (by norm_num)).2]; norm_num
  · intro n hn
    rw [(key n (by omega)).2]
    have e : min 180 (max 0 ((n : Int) - 201)) ≤ 179 := by omega
    have e2 : ((min 180 (max 0 ((n : Int) - 201)) : Int) : ℚ) ≤ 179 := by exact_mod_cast e
    linarith
  · rw [(key 381 (by norm_num)).2]; norm_num
  · rw [← run_succ]; exact run_501
  · intro p h0 h1 hc
    have := (key p (by omega)).1
    rw [hc] at this
    simp only [Anim.init] at this
    omega

/-- Claim C10 at 381 ticks and at the period candidate 500. -/
theorem tick_schedule_period_501_witness :
    (381 : Nat) ≤ 500 ∧ (run 381 : Anim ℚ).timer = (381 : Nat) ∧
    (0 : Nat) < 500 ∧ (500 : Nat) < 501 ∧ (run 500 : Anim ℚ) ≠ Anim.init :=
  ⟨by decide, (tick_schedule_period_501.1 381 (by decide)).1, by decide, by decide,
    tick_schedule_period_501.2.2.2.2.2.2.2 500 (by decide) (by decide)⟩

/-! ### The order of the calls of one iteration -/

section Calls
variable {K : Type} [LinearOrderedField K]

/-- The calls of one iteration, written out. -/
theorem frame_calls (g : Prims K) (h : Handles) (a : Anim K) (q : Points K) :
    (frame g h a q).2.2 =
      [ .bindFramebuffer h.fbo, .enableDepthTest, .clearColor (1 / 10) (1 / 10) (1 / 10) 1,
        .clear true true, .useProgram h.conveerShaderProgram,
        .uniform2fv h.conveerShaderProgram "points" 4
          ((((((q.move (tick a).pos.1 (tick a).pos.2).rotate (tick a).rot).scale
            (tick a).scale.1 (tick a).scale.2).deform 0 0 (tick a).trapecional
            (-(tick a).trapecional)).getRawData g).2),
        .bindVertexArray h.quadVAO, .drawArraysTriangles 0 6,
        .bindFramebuffer 0, .disableDepthTest, .clearColor 1 1 1 1, .clear true false,
        .useProgram h.screenShaderProgram,
        .uniform2f h.screenShaderProgram "windowSize" 800 800,
        .bindTexture2D h.textureColorbuffer, .drawArraysTriangles 0 6,
        .swapBuffers, .pollEvents ] := by
  simp [frame, emit, SCR_WIDTH, SCR_HEIGHT]

/-- The calls of one iteration, with a name for the uploaded array. -/
theorem frame_calls_of (g : Prims K) (h : Handles) (a : Anim K) (q : Points K) :
    ∃ v, v = ((((((q.move (tick a).pos.1 (tick a).pos.2).rotate (tick a).rot).scale
            (tick a).scale.1 (tick a).scale.2).deform 0 0 (tick a).trapecional
            (-(tick a).trapecional)).getRawData g).2) ∧
      (frame g h a q).2.2 =
      [ .bindFramebuffer h.fbo, .enableDepthTest, .clearColor (1 / 10) (1 / 10) (1 / 10) 1,
        .clear true true, .useProgram h.conveerShaderProgram,
        .uniform2fv h.conveerShaderProgram "points" 4 v,
        .bindVertexArray h.quadVAO, .drawArraysTriangles 0 6,
        .bindFramebuffer 0, .disableDepthTest, .clearColor 1 1 1 1, .clear true false,
        .useProgram h.screenShaderProgram,
        .uniform2f h.screenShaderProgram "windowSize" 800 800,
        .bindTexture2D h.textureColorbuffer, .drawArraysTriangles 0 6,
        .swapBuffers, .pollEvents ] :=
  ⟨_, rfl, frame_calls g h a q⟩

/-- What the calls of one iteration, uploading `v`, leave in the front buffer and
in the texture, from any graphics state. -/
theorem exec_frame_calls (h : Handles) (s : GLState K) (v : Fin 8 → K) (hfbo : h.fbo ≠ 0) :
    ∃ uniformsA uniformsB sampledA,
      (s.execAll h
        [ .bindFramebuffer h.fbo, .enableDepthTest, .clearColor (1 / 10) (1 / 10) (1 / 10) 1,
          .clear true true, .useProgram h.conveerShaderProgram,
          .uniform2fv h.conveerShaderProgram "points" 4 v,
          .bindVertexArray h.quadVAO, .drawArraysTriangles 0 6,
          .bindFramebuffer 0, .disableDepthTest, .clearColor 1 1 1 1, .clear true false,
          .useProgram h.screenShaderProgram,
          .uniform2f h.screenShaderProgram "windowSize" 800 800,
          .bindTexture2D h.textureColorbuffer, .drawArraysTriangles 0 6,
          .swapBuffers, .pollEvents ]).frontBuffer
        = .drawn (.cleared 1 1 1 1) h.screenShaderProgram uniformsB
          (.drawn (.cleared (1 / 10) (1 / 10) (1 / 10) 1)
            h.conveerShaderProgram uniformsA sampledA 6) 6 ∧
      uniformsB "windowSize" = some (.vec2 800 800) ∧
      (s.execAll h
        [ .bindFramebuffer h.fbo, .enableDepthTest, .clearColor (1 / 10) (1 / 10) (1 / 10) 1,
          .clear true true, .useProgram h.conveerShaderProgram,
          .uniform2fv h.conveerShaderProgram "points" 4 v,
          .bindVertexArray h.quadVAO, .drawArraysTriangles 0 6,
          .bindFramebuffer 0, .disableDepthTest, .clearColor 1 1 1 1, .clear true false,
          .useProgram h.screenShaderProgram,
          .uniform2f h.screenShaderProgram "windowSize" 800 800,
          .bindTexture2D h.textureColorbuffer, .drawArraysTriangles 0 6,
          .swapBuffers, .pollEvents ]).texImage h.textureColorbuffer
        = .drawn (.cleared (1 / 10) (1 / 10) (1 / 10) 1)
          h.conveerShaderProgram uniformsA sampledA 6 ∧
      uniformsA "points" = some (.vec2Array 4 v) := by
  simp only [GLState.execAll, List.foldl, GLState.exec, GLState.writeColor, if_true,
      hfbo, if_false, Function.update_same]
  exact ⟨_, _, _, rfl, by simp, rfl, by simp⟩

/-- Claim C9: in every iteration of the frame loop, whatever the animation
variables, the quad and the graphics state are, the pipeline operations made
are exactly Pass A (with the array `getRawData` returns for this iteration
as `points`), then Pass B, then the buffer swap; and when `fbo` is a
framebuffer object (its name is not 0) the image presented by the swap is
the composite draw over a cleared back buffer that samples the texture as
this iteration's Pass A left it: cleared, then drawn once with this
iteration's `points`. -/
theorem frame_pass_order (g : Prims K) (h : Handles) (a : Anim K) (q : Points K)
    (s : GLState K) (hfbo : h.fbo ≠ 0) :
    let a1 := tick a
    let q1 := (((q.move a1.pos.1 a1.pos.2).rotate a1.rot).scale a1.scale.1 a1.scale.2).deform
      0 0 a1.trapecional (-a1.trapecional)
    let vertices := (q1.getRawData g).2
    let calls := (frame g h a q).2.2
    let s1 := s.execAll h calls
    calls.filter GLCall.isPipelineOp = Spec.passA h vertices ++ Spec.passB h ++ [.swapBuffers] ∧
    ∃ uniformsA uniformsB sampledA,
      s1.frontBuffer = .drawn (.cleared 1 1 1 1) h.screenShaderProgram uniformsB
        (s1.texImage h.textureColorbuffer) 6 ∧
      uniformsB "windowSize" = some (.vec2 800 800) ∧
      s1.texImage h.textureColorbuffer = .drawn (.cleared (1 / 10) (1 / 10) (1 / 10) 1)
        h.conveerShaderProgram uniformsA sampledA 6 ∧
      uniformsA "points" = some (.vec2Array 4 vertices) := by
  intro a1 q1 vertices calls s1
  obtain ⟨v, hv, hc⟩ := frame_calls_of g h a q
  have hvv : vertices = v := hv.symm
  have hcc : calls = _ := hc
  clear_value vertices calls
  subst hvv
  subst hcc
  constructor
  · simp [List.filter, GLCall.isPipelineOp, Spec.passA, Spec.passB]
  · obtain ⟨uA, uB, sA, h1, h2, h3, h4⟩ := exec_frame_calls h s vertices hfbo
    exact ⟨uA, uB, sA, h3 ▸ h1, h2, h3, h4⟩

/-- Claim C9 for the first iteration of `main`, with framebuffer name 1. -/
theorem frame_pass_order_witness :
    let g : Prims ℝ := ⟨Real.cos, Real.sin, fun x => (Real.sqrt x)⁻¹, Real.pi / 180⟩
    let h : Handles := ⟨1, 1, 1, 3, 6⟩
    let a : Anim ℝ := Anim.init
    let q : Points ℝ := Points.construct g initialQuad (fun _ => 0) (fun _ => ⟨0, 0, 0, 0⟩)
    let s : GLState ℝ :=
      { drawFramebuffer := 0, depthTest := false, clearColor := (0, 0, 0, 0), program := 0,
        uniforms := fun _ _ => none, vertexArray := 0, texture2D := 1,
        texImage := fun _ => .cleared 0 0 0 0, backBuffer := .cleared 0 0 0 0,
        frontBuffer := .cleared 0 0 0 0 }
    h.fbo ≠ 0 ∧
    (let a1 := tick a
     let q1 := (((q.move a1.pos.1 a1.pos.2).rotate a1.rot).scale a1.scale.1 a1.scale.2).deform
       0 0 a1.trapecional (-a1.trapecional)
     let vertices := (q1.getRawData g).2
     let calls := (frame g h a q).2.2
     let s1 := s.execAll h calls
     calls.filter GLCall.isPipelineOp = Spec.passA h vertices ++ Spec.passB h ++ [.swapBuffers] ∧
     ∃ uniformsA uniformsB sampledA,
       s1.frontBuffer = .drawn (.cleared 1 1 1 1) h.screenShaderProgram uniformsB
         (s1.texImage h.textureColorbuffer) 6 ∧
       uniformsB "windowSize" = some (.vec2 800 800) ∧
       s1.texImage h.textureColorbuffer = .drawn (.cleared (1 / 10) (1 / 10) (1 / 10) 1)
         h.conveerShaderProgram uniformsA sampledA 6 ∧
       uniformsA "points" = some (.vec2Array 4 vertices)) := by
  intro g h a q s
  have hfbo : h.fbo ≠ 0 := Nat.one_ne_zero
  exact ⟨hfbo, frame_pass_order g h a q s hfbo⟩

end Calls

end Main
